import Mathlib

/-!
Verification of the reconciliation/ETL core of the analytics dashboard
repository (src/src/etl.py, with the DashboardAnalyzer variant in
src/data_analysis.py).  Python/pandas code is shallowly embedded: DataFrames
become lists of records, nullable (NaN-able) cells become `Option` values,
floats become `ℚ`, and each pandas operation is translated line by line.
-/

namespace Etl

/-! ## Currency parsing (`etl.parse_currency`, lines 17-25)

The source strips every character other than digits, dot and minus
(`MONEY_RE`), maps the empty string and a bare "." to NaN, and converts with
`pd.to_numeric(errors="coerce")` (malformed remainders coerce to NaN).
`none` models NaN. -/

/-- Python `str.lower()` (ASCII data): lowercase every character. -/
def pyLower (s : String) : String := ⟨s.data.map Char.toLower⟩

/-- Python `str.strip()`: drop leading and trailing whitespace. -/
def pyStrip (s : String) : String :=
  ⟨((s.data.dropWhile Char.isWhitespace).reverse.dropWhile Char.isWhitespace).reverse⟩

def isMoneyChar (c : Char) : Bool := c.isDigit || c = '.' || c = '-'

def stripMoney (s : String) : String := ⟨s.data.filter isMoneyChar⟩

def digitsVal (ds : List Char) : ℕ := ds.foldl (fun n c => 10 * n + (c.toNat - 48)) 0

/-- Parse an unsigned decimal numeral `digits[.digits]` (at least one digit in
total), as accepted by `pd.to_numeric`; anything else coerces to `none`. -/
def parseUnsigned (cs : List Char) : Option ℚ :=
  let intPart := cs.takeWhile Char.isDigit
  let rest := cs.dropWhile Char.isDigit
  match rest with
  | [] => if intPart.isEmpty then none else some (digitsVal intPart)
  | '.' :: frac =>
    if frac.all Char.isDigit && !(intPart.isEmpty && frac.isEmpty) then
      some ((digitsVal intPart : ℚ) + (digitsVal frac : ℚ) / (10 : ℚ) ^ frac.length)
    else none
  | _ => none

def parseDecimalChars (cs : List Char) : Option ℚ :=
  match cs with
  | '-' :: rest => (parseUnsigned rest).map (fun q => -q)
  | _ => parseUnsigned cs

/-- Embedding of `parse_currency` applied to one cell.  Pandas first runs
`astype(str)`, which renders a NaN cell as the string "nan"; stripping leaves
"" which coerces back to NaN. -/
def parse_currency_cell (v : Option String) : Option ℚ :=
  parseDecimalChars (stripMoney (v.getD "nan")).data

/-! ## Customer deduplication (`etl.load_customers`, lines 60-97)

A raw customer row is modelled by the three columns the dedup logic reads:
the identity column, the email column and the phone column (each cell
nullable).  The embedding covers the code path where all three columns were
identified (lines 63-65 succeeded), which is the path the spec describes. -/

structure RawCust where
  id : Option String
  email : Option String
  phone : Option String
deriving DecidableEq, Repr

/-- Python `str(cell)`: a NaN cell prints as "nan" (pandas `astype(str)`). -/
def pyStr (v : Option String) : String := v.getD "nan"

/-- Embedding of the `__ep` composite key of lines 82 and 89:
`astype(str)` of the email cell, a "|" separator, `astype(str)` of the phone
cell.  Note the source applies no normalisation here. -/
def epKey (r : RawCust) : String := pyStr r.email ++ "|" ++ pyStr r.phone

/-- Embedding of `DataFrame.drop_duplicates(key)`: keep the first occurrence
per key value, where `seen` accumulates the key values already kept. -/
def dedupBy {α κ : Type} [DecidableEq κ] (k : α → κ) : List α → List κ → List α
  | [], _ => []
  | x :: xs, seen =>
    if k x ∈ seen then dedupBy k xs seen else x :: dedupBy k xs (k x :: seen)

/-- Line 69: `with_id = cust[cust[id_col].notna()]`. -/
def custWithId (cust : List RawCust) : List RawCust :=
  cust.filter (fun r => r.id.isSome)

/-- Line 70: `without_id = cust[cust[id_col].isna()]`. -/
def custWithoutId (cust : List RawCust) : List RawCust :=
  cust.filter (fun r => r.id.isNone)

/-- Lines 75-78: `with_id.drop_duplicates(id_col)`, guarded on non-emptiness
as in the source. -/
def custWithId2 (cust : List RawCust) : List RawCust :=
  if (custWithId cust).isEmpty then custWithId cust
  else dedupBy (fun r => r.id) (custWithId cust) []

/-- Lines 81-94: dedup the identity-less rows on the `__ep` key, then exclude
the rows whose key collides with the identity-bearing set (the exclusion runs
only when that set is non-empty, as in the source). -/
def custWithoutId2 (cust : List RawCust) : List RawCust :=
  if (custWithoutId cust).isEmpty then custWithoutId cust
  else
    if (custWithId2 cust).isEmpty then dedupBy epKey (custWithoutId cust) []
    else
      (dedupBy epKey (custWithoutId cust) []).filter
        (fun r => !(decide (epKey r ∈ (custWithId2 cust).map epKey)))

/-- Embedding of the dedup core of `load_customers` (lines 69-97): split on
identity presence, dedup each part, exclude colliding identity-less rows, and
concatenate (line 97). -/
def load_customers_dedup (cust : List RawCust) : List RawCust :=
  custWithId2 cust ++ custWithoutId2 cust

/-- Composite key as the specification words it (spec §4.3/§8): lowercased and
trimmed email plus digits-only phone.  Used only to state what the claim
asserts; the source builds `epKey` instead. -/
def specNormKey (r : RawCust) : String :=
  pyLower (pyStrip (pyStr r.email)) ++ "|" ++ ⟨(pyStr r.phone).data.filter Char.isDigit⟩

/-! ## Marketing opt-in flag (`etl.load_customers`, lines 145-151) -/

/-- Token list of line 147, in source order. -/
def truthyTokens : List String := ["true", "yes", "1", "y", "opted in"]

/-- Embedding of `customers[mcol].astype(str).str.lower().isin([...])` for one
cell. -/
def marketing_opt_in (v : Option String) : Bool :=
  decide (pyLower (pyStr v) ∈ truthyTokens)

/-- Embedding of the marketing column construction (lines 145-151): map the
source column through `marketing_opt_in` when one was identified, else default
every one of the `n` rows to `False`. -/
def marketingColumn : Option (List (Option String)) → ℕ → List Bool
  | some vals, _ => vals.map marketing_opt_in
  | none, n => List.replicate n false

/-! ## Merchant sheet selection (`etl.load_merchants`, lines 161-167)

For a multi-sheet workbook the source evaluates
`max(sheets.values(), key=lambda d: (d.shape[0], d.shape[1]))`: Python `max`
keeps the first element whose key tuple is strictly greater (lexicographically)
than the current best.  A sheet is modelled by its shape `(rows, columns)`. -/

/-- Python tuple comparison `(y.rows, y.cols) > (b.rows, b.cols)`. -/
def shapeGt (y b : ℕ × ℕ) : Bool :=
  decide (b.1 < y.1) || (decide (b.1 = y.1) && decide (b.2 < y.2))

/-- Embedding of `max(sheets.values(), key=lambda d: (d.shape[0], d.shape[1]))`
over the workbook's sheets in sheet order; `none` only for an impossible empty
workbook. -/
def pickSheet : List (ℕ × ℕ) → Option (ℕ × ℕ)
  | [] => none
  | x :: xs => some (xs.foldl (fun b y => if shapeGt y b then y else b) x)

/-! ## Sales report parsing (`etl.parse_items_report_csv` lines 232-263,
`etl.load_sales` lines 265-292, and the `DashboardAnalyzer` variant in
data_analysis.py lines 123-188)

A report file is modelled as its list of rows of cells; the raw text of a line
is the comma-join of its cells (CSV quoting is not exercised by the claims). -/

def SalesFile := List (List String)

def lineOfRow (r : List String) : String := String.intercalate "," r

/-- Substring test on strings, character-exact (Python `in`). -/
def isPrefixChars : List Char → List Char → Bool
  | [], _ => true
  | _ :: _, [] => false
  | p :: ps, c :: cs => p = c && isPrefixChars ps cs

def containsChars (pat : List Char) : List Char → Bool
  | [] => isPrefixChars pat []
  | c :: cs => isPrefixChars pat (c :: cs) || containsChars pat cs

def containsSub (pat s : String) : Bool := containsChars pat.data s.data

/-- Header detection of etl.py line 241: the lowercased line contains "name"
and "net sales", and the line contains a comma. -/
def etlHeaderLine (r : List String) : Bool :=
  containsSub "name" (pyLower (lineOfRow r)) &&
    containsSub "net sales" (pyLower (lineOfRow r)) && containsSub "," (lineOfRow r)

/-- Header detection of data_analysis.py line 131 (case-sensitive). -/
def daHeaderLine (r : List String) : Bool :=
  containsSub "Name" (lineOfRow r) &&
    containsSub "Net Sales" (lineOfRow r) && containsSub "," (lineOfRow r)

/-- Embedding of `standardize_cols` for one column label (lines 27-31): strip,
then replace embedded newlines by spaces.  The source strips first, so the
replacement concerns interior newlines only. -/
def stdCol (s : String) : String :=
  ⟨(pyStrip s).data.map (fun c => if c = '\n' || c = '\r' then ' ' else c)⟩

structure ParsedItems where
  cols : List String
  body : List (List String)
deriving DecidableEq

/-- Embedding of `etl.parse_items_report_csv` (lines 232-263): scan the first
200 lines for a header line; on success read the CSV from that line on,
standardize the column labels, and succeed only when a "Net Sales" column is
present (lines 252-259); otherwise return `none` — this parser has no
summary-block fallback. -/
def etlParseItems (file : SalesFile) : Option ParsedItems :=
  match (file.take 200).findIdx? etlHeaderLine with
  | none => none
  | some i =>
    match file.drop i with
    | [] => none
    | hdr :: body =>
      let cols := hdr.map stdCol
      if "Net Sales" ∈ cols then some ⟨cols, body⟩ else none

/-- Sum of the parsed "Net Sales" column (`df["Net Sales_num"].sum()`; pandas
sum skips NaN, and a cell missing from a short row is NaN). -/
def netSalesSum (df : ParsedItems) : ℚ :=
  match (df.cols.findIdx? (fun c => c = "Net Sales")) with
  | none => 0
  | some j => (df.body.filterMap (fun r => (r.get? j).bind (fun c => parse_currency_cell (some c)))).sum

structure SalesRow where
  merchant_name_key : String
  net_sales_60d_item : ℚ
deriving DecidableEq

/-- Per-file contribution of `etl.load_sales` (lines 273-287): a file whose
parse returned `None` or an empty frame contributes no row; otherwise one row
holding the summed "Net Sales" figure. -/
def etlFileContribution (key : String) (file : SalesFile) : List SalesRow :=
  match etlParseItems file with
  | none => []
  | some df => if df.body.isEmpty then [] else [⟨key, netSalesSum df⟩]

/-- Cell cleanup of data_analysis.py lines 148/154:
`row[1].strip().replace(quote, "").replace(dollar, "").replace(comma, "")`. -/
def daCleanCell (s : String) : String :=
  ⟨(pyStrip s).data.filter (fun c => !(c = '"' || c = '$' || c = ','))⟩

/-- Embedding of the summary-block fallback of data_analysis.py lines 137-158:
scan rows 0..20 (the loop breaks once `i > 20`), and for every two-column row
whose first cell strips to "Net Sales" try to parse the second cell; a parse
failure keeps the previous value, a later success overwrites an earlier one.
The "Gross Sales" rows are parsed into a local that the function never
returns, so they cannot contribute to the figure. -/
def daFallbackNet (file : SalesFile) : ℚ :=
  (file.take 21).foldl
    (fun acc r =>
      if 2 ≤ r.length && pyStrip (r.getD 0 "") = "Net Sales" then
        (parseDecimalChars (daCleanCell (r.getD 1 "")).data).getD acc
      else acc)
    0

/-- Embedding of `DashboardAnalyzer.parse_items_report_csv` at figure level
(lines 123-169): with a detected header the frame is returned (its Net Sales
sum when the exact column exists, else the loader's 0 default of line 181);
with no header the fallback figure is returned only when positive (line 159).
The variant does not standardize column labels. -/
def daParseFigure (file : SalesFile) : Option ℚ :=
  match (file.take 200).findIdx? daHeaderLine with
  | some i =>
    (match file.drop i with
     | [] => some 0
     | hdr :: body =>
       if "Net Sales" ∈ hdr then some (netSalesSum ⟨hdr, body⟩) else some 0)
  | none =>
    let v := daFallbackNet file
    if 0 < v then some v else none

/-! ## Enrichment and metrics (`etl.enrich_and_metrics`, lines 294-378)

A loaded merchant row carries the fields the engine reads; the volume columns
hold `none` for cells that were absent or failed currency parsing. -/

structure MerchantRow where
  legal_name : Option String
  dba_name : Option String
  merchant_name_key : String
  mtd_volume : Option ℚ
  last_month_volume : Option ℚ
deriving DecidableEq, Repr

structure EnrichedRow where
  legal_name : Option String
  dba_name : Option String
  merchant_name_key : String
  mtd_volume : ℚ
  last_month_volume : ℚ
  net_sales_60d_item : Option ℚ
  net_sales_60d : ℚ
  active_flag : Bool
  daily_est : ℚ
  weekly_est : ℚ
  monthly_est : ℚ
deriving DecidableEq, Repr

/-- Row read by the customer-side metrics (lines 344-347). -/
structure CustomerRow where
  active_flag : Bool
  marketing_opt_in : Bool
deriving DecidableEq

/-- Embedding of `m.merge(s, on="merchant_name_key", how="left")` (line 305):
left row order is kept; a left row with no match yields one row with a null
item figure; a left row with several matches is repeated once per match in
right order. -/
def mergeSales : List MerchantRow → List SalesRow → List (MerchantRow × Option ℚ)
  | [], _ => []
  | mr :: rest, ss =>
    let hits := ss.filter (fun sr => sr.merchant_name_key = mr.merchant_name_key)
    (if hits.isEmpty then [(mr, none)]
     else hits.map (fun sr => (mr, some sr.net_sales_60d_item))) ++ mergeSales rest ss

/-- Embedding of lines 309-329 for one merged row: default the two volume
columns to 0 (`fillna(0)`), form the fallback sum, coalesce with `np.where`
(line 320), then derive the activity flag and the window estimates. -/
def enrichRow (p : MerchantRow × Option ℚ) : EnrichedRow :=
  let mtd0 := p.1.mtd_volume.getD 0
  let lm0 := p.1.last_month_volume.getD 0
  let fallback_60d := mtd0 + lm0
  let ns := match p.2 with
    | some v => v
    | none => fallback_60d
  { legal_name := p.1.legal_name
    dba_name := p.1.dba_name
    merchant_name_key := p.1.merchant_name_key
    mtd_volume := mtd0
    last_month_volume := lm0
    net_sales_60d_item := p.2
    net_sales_60d := ns
    active_flag := decide (0 < ns)
    daily_est := ns / 60
    weekly_est := ns * 7 / 60
    monthly_est := ns / 2 }

/-- Enrichment step: merge then per-row coalesce and derivations. -/
def enrich_merchants (ms : List MerchantRow) (ss : List SalesRow) : List EnrichedRow :=
  (mergeSales ms ss).map enrichRow

/-- Embedding of Python `round(x, 2)` (lines 372-375) over exact rationals.
Python rounds the underlying double half-to-even; this model rounds half
away from the even choice only at exact half-cent ties, and every theorem
below evaluates it away from such ties. -/
def round2 (q : ℚ) : ℚ := (round (100 * q) : ℤ) / 100

structure Top3Row where
  legal_name : Option String
  dba_name : Option String
  net_sales_60d : ℚ
  daily_est : ℚ
  weekly_est : ℚ
  monthly_est : ℚ
deriving DecidableEq, Repr

/-- Ascending comparison used by the embedded `sort_values`: compare the sort
key, breaking ties by original row position.  Pandas `nargsort` computes a
numpy `argsort` of the key column — which for the small frames exercised here
is a stable insertion sort, so ties keep ascending position. -/
def ascPairLe (a b : ℕ × EnrichedRow) : Prop :=
  a.2.net_sales_60d < b.2.net_sales_60d ∨
    (a.2.net_sales_60d = b.2.net_sales_60d ∧ a.1 ≤ b.1)

instance ascPairLe.decRel : DecidableRel ascPairLe := fun a b => by
  unfold ascPairLe; infer_instance

instance ascPairLe.total : IsTotal (ℕ × EnrichedRow) ascPairLe := by
  constructor
  intro a b
  rcases lt_trichotomy a.2.net_sales_60d b.2.net_sales_60d with h | h | h
  · exact Or.inl (Or.inl h)
  · rcases Nat.le_total a.1 b.1 with hn | hn
    · exact Or.inl (Or.inr ⟨h, hn⟩)
    · exact Or.inr (Or.inr ⟨h.symm, hn⟩)
  · exact Or.inr (Or.inl h)

instance ascPairLe.trans : IsTrans (ℕ × EnrichedRow) ascPairLe := by
  constructor
  intro a b c hab hbc
  rcases hab with hab | ⟨hab, hab2⟩
  · rcases hbc with hbc | ⟨hbc, _⟩
    · exact Or.inl (hab.trans hbc)
    · exact Or.inl (hbc ▸ hab)
  · rcases hbc with hbc | ⟨hbc, hbc2⟩
    · exact Or.inl (hab ▸ hbc)
    · exact Or.inr ⟨hab.trans hbc, hab2.trans hbc2⟩

/-- Embedding of `m.sort_values("net_sales_60d", ascending=False)` (line 353)
on position-annotated rows: pandas `nargsort` argsorts the key column
ascending and reverses the indexer when `ascending=False`. -/
def sortDescEnum (rows : List EnrichedRow) : List (ℕ × EnrichedRow) :=
  (List.insertionSort ascPairLe rows.enum).reverse

def top3RowOf (p : ℕ × EnrichedRow) : Top3Row :=
  ⟨p.2.legal_name, p.2.dba_name, p.2.net_sales_60d, p.2.daily_est,
    p.2.weekly_est, p.2.monthly_est⟩

/-- Embedding of lines 352-356: sort descending, project the report columns,
keep the first three rows. -/
def top3Of (rows : List EnrichedRow) : List Top3Row :=
  ((sortDescEnum rows).take 3).map top3RowOf

/-- Ranking as the claim words it: descending stable sort, ties keeping the
original (ascending) row order.  Used only to state what the claim asserts. -/
def descLeSpec (a b : ℕ × EnrichedRow) : Prop :=
  b.2.net_sales_60d < a.2.net_sales_60d ∨
    (a.2.net_sales_60d = b.2.net_sales_60d ∧ a.1 ≤ b.1)

instance descLeSpec.decRel : DecidableRel descLeSpec := fun a b => by
  unfold descLeSpec; infer_instance

def top3Spec (rows : List EnrichedRow) : List Top3Row :=
  ((List.insertionSort descLeSpec rows.enum).take 3).map top3RowOf

structure Metrics where
  merchants_total : ℤ
  merchants_active : ℤ
  merchants_inactive : ℤ
  merchants_with_item_data : ℤ
  customers_total : ℤ
  customers_active : ℤ
  customers_inactive : ℤ
  customers_marketing : ℤ
  platform_total_60d : ℚ
  platform_daily : ℚ
  platform_weekly : ℚ
  platform_monthly : ℚ
  top3 : List Top3Row
deriving DecidableEq

/-- Embedding of `enrich_and_metrics` (lines 294-378), following the source
statement by statement.  The three arguments are only read (the source copies
`merchants` and `sales_agg` on lines 298-299 and every later write targets the
copies; `customers` appears only in `len`, column sums and `.get`). -/
def enrich_and_metrics (merchants : List MerchantRow) (customers : List CustomerRow)
    (sales_agg : List SalesRow) : List EnrichedRow × Metrics :=
  let merged := mergeSales merchants sales_agg
  let merchants_with_items : ℕ := merged.countP (fun p => p.2.isSome)
  let m := merged.map enrichRow
  let total_60d : ℚ := (m.map (fun r => r.net_sales_60d)).sum
  let daily := total_60d / 60
  let weekly := total_60d * 7 / 60
  let monthly := total_60d / 2
  let merchants_total : ℤ := (m.length : ℤ)
  let merchants_active : ℤ := (m.countP (fun r => r.active_flag) : ℤ)
  let merchants_inactive : ℤ := merchants_total - merchants_active
  let customers_total : ℤ := (customers.length : ℤ)
  let customers_active : ℤ := (customers.countP (fun r => r.active_flag) : ℤ)
  let customers_inactive : ℤ := customers_total - customers_active
  let customers_marketing : ℤ := (customers.countP (fun r => r.marketing_opt_in) : ℤ)
  (m,
    { merchants_total := merchants_total
      merchants_active := merchants_active
      merchants_inactive := merchants_inactive
      merchants_with_item_data := (merchants_with_items : ℤ)
      customers_total := customers_total
      customers_active := customers_active
      customers_inactive := customers_inactive
      customers_marketing := customers_marketing
      platform_total_60d := round2 total_60d
      platform_daily := round2 daily
      platform_weekly := round2 weekly
      platform_monthly := round2 monthly
      top3 := top3Of m })

/-- Embedding of the fatal validation of `run_pipeline_from_folders`
(lines 474-481): the row-count floor and the daily window-math assertion,
which compares the daily-estimate sum against the snapshot's already-rounded
`platform_total_60d` divided by 60. -/
def pipelineValidation (enriched : List EnrichedRow) (metrics : Metrics) : Prop :=
  700 ≤ enriched.length ∧
    |(enriched.map (fun r => r.daily_est)).sum - metrics.platform_total_60d / 60| <
      1 / 1000000

/-! ## Metrics cache round trip (`etl.save_current_metrics` lines 388-396,
`etl.load_previous_metrics` lines 380-386)

The metrics dictionary is modelled as its scalar entries plus the `top3`
entry, which is either still a DataFrame (`table`) or its
`to_dict("records")` flattening (`records`).  Python ints, floats and strings
survive a `json.dump`/`json.load` round trip with their values intact, so the
cache file is modelled by the dictionary written to it; the one exception is
NaN, which `json.load` re-materializes as a fresh float object that compares
unequal to every NaN, captured by the `pyEq` functions below. -/

inductive TopVal where
  | table (rows : List Top3Row)
  | records (rows : List Top3Row)
deriving DecidableEq

def rowsOfTop : TopVal → List Top3Row
  | TopVal.table r => r
  | TopVal.records r => r

structure MetricsDict where
  scalars : List (String × ℚ)
  top3 : TopVal
deriving DecidableEq

/-- Embedding of `save_current_metrics`: shallow-copy the dictionary, replace
the copy's `top3` entry by `to_dict("records")`, and write the copy as JSON.
The value returned is the pair (cache contents, the caller's dictionary after
the call) — the source never writes through `metrics` itself. -/
def save_current_metrics (m : MetricsDict) : MetricsDict × MetricsDict :=
  let metrics_copy : MetricsDict := { m with top3 := TopVal.records (rowsOfTop m.top3) }
  (metrics_copy, m)

/-- Embedding of `load_previous_metrics`: parse the cache JSON back into a
dictionary (value-preserving, see the section comment). -/
def load_previous_metrics (cache : MetricsDict) : MetricsDict := cache

/-- Python `==` on name cells across a serialization boundary: equal strings
compare equal, but a NaN never equals a NaN that was re-parsed from JSON
(distinct float objects, and `nan == nan` is false). -/
def pyEqOptStr : Option String → Option String → Bool
  | some a, some b => decide (a = b)
  | _, _ => false

def pyEqRow (a b : Top3Row) : Bool :=
  pyEqOptStr a.legal_name b.legal_name && pyEqOptStr a.dba_name b.dba_name &&
    decide (a.net_sales_60d = b.net_sales_60d) && decide (a.daily_est = b.daily_est) &&
    decide (a.weekly_est = b.weekly_est) && decide (a.monthly_est = b.monthly_est)

def pyEqRows : List Top3Row → List Top3Row → Bool
  | [], [] => true
  | x :: xs, y :: ys => pyEqRow x y && pyEqRows xs ys
  | _, _ => false

def pyEqTop : TopVal → TopVal → Bool
  | TopVal.table xs, TopVal.table ys => pyEqRows xs ys
  | TopVal.records xs, TopVal.records ys => pyEqRows xs ys
  | _, _ => false

/-- Python `==` between two metrics dictionaries across the serialization
boundary (scalar values round-trip exactly; rows compare cellwise). -/
def pyEqMetrics (a b : MetricsDict) : Bool :=
  decide (a.scalars = b.scalars) && pyEqTop a.top3 b.top3

/-- True when a report row carries no NaN cell (the numeric cells of a `top3`
row are never NaN: `net_sales_60d` and its derivations are total). -/
def rowNoNan (r : Top3Row) : Bool := r.legal_name.isSome && r.dba_name.isSome

/-! ## Frame of `enrich_and_metrics` (lines 294-378)

The source binds `m = merchants.copy()` (line 298) and `s = sales_agg.copy()`
(line 299); every in-place write in the function targets `m` or frames derived
from it, and `customers` occurs only inside `len(...)`, column sums and
`.get(...)`.  The statement-level embedding therefore returns the three input
tables exactly as they were passed, alongside the enrichment result. -/

structure PipelineTables where
  merchants : List MerchantRow
  customers : List CustomerRow
  sales_agg : List SalesRow
deriving DecidableEq

def enrich_and_metrics_frame (t : PipelineTables) :
    PipelineTables × (List EnrichedRow × Metrics) :=
  let m0 := t.merchants
  let s0 := t.sales_agg
  let result := enrich_and_metrics m0 t.customers s0
  ({ merchants := t.merchants, customers := t.customers, sales_agg := t.sales_agg },
    result)

/-! ## Concrete test inputs used by the theorems below -/

def c1Merchant : MerchantRow := ⟨some "ACME LLC", some "ACME", "ACME", some 100, some 100⟩

def c1Sale : SalesRow := ⟨"ACME", 250⟩

def c2r1 : RawCust := ⟨none, some "A@x.com ", some "5551234567"⟩

def c2r2 : RawCust := ⟨none, some "a@x.com", some "5551234567"⟩

def c2wA : RawCust := ⟨none, some "a@x.com", some "111"⟩

def c2wB : RawCust := ⟨some "42", some "b@x.com", some "222"⟩

def c3zeroMerchant : MerchantRow := ⟨some "ZERO LLC", none, "ZERO", none, none⟩

def c3bigMerchant : MerchantRow := ⟨some "BIG LLC", none, "BIG", some (1 / 50000), none⟩

def c3Merchants : List MerchantRow := c3bigMerchant :: List.replicate 699 c3zeroMerchant

def c4rowA : EnrichedRow :=
  ⟨some "A", none, "A", 100, 0, none, 100, true, 100 / 60, 100 * 7 / 60, 100 / 2⟩

def c4rowB : EnrichedRow :=
  ⟨some "B", none, "B", 300, 0, none, 300, true, 300 / 60, 300 * 7 / 60, 300 / 2⟩

def c4rowC : EnrichedRow :=
  ⟨some "C", none, "C", 300, 0, none, 300, true, 300 / 60, 300 * 7 / 60, 300 / 2⟩

def c4Rows : List EnrichedRow := [c4rowA, c4rowB, c4rowC]

def c6File : SalesFile := [["Summary Report"], ["Net Sales", "$100.00"]]

def c6NoDataFile : SalesFile := [["Some preamble"], ["Totals", "none"]]

def c9Row : Top3Row := ⟨some "ACME LLC", none, 5, 1, 2, 3⟩

def c9Metrics : MetricsDict := ⟨[], TopVal.table [c9Row]⟩

def c9GoodRow : Top3Row := ⟨some "ACME LLC", some "ACME", 5, 1, 2, 3⟩

def c9GoodMetrics : MetricsDict := ⟨[], TopVal.table [c9GoodRow]⟩

/-! # Theorems -/

/-! ## Generic facts about `dedupBy` (`drop_duplicates`) -/

theorem mem_of_mem_dedupBy {α κ : Type} [DecidableEq κ] {k : α → κ} :
    ∀ (l : List α) (seen : List κ) (x : α), x ∈ dedupBy k l seen → x ∈ l := by
  intro l
  induction l with
  | nil => intro seen x h; simp [dedupBy] at h
  | cons y ys ih =>
    intro seen x h
    simp only [dedupBy] at h
    by_cases hc : k y ∈ seen
    · rw [if_pos hc] at h
      exact List.mem_cons_of_mem _ (ih _ _ h)
    · rw [if_neg hc] at h
      rcases List.mem_cons.mp h with h1 | h2
      · rw [h1]; exact List.mem_cons_self _ _
      · exact List.mem_cons_of_mem _ (ih _ _ h2)

theorem key_not_seen_of_mem_dedupBy {α κ : Type} [DecidableEq κ] {k : α → κ} :
    ∀ (l : List α) (seen : List κ) (x : α), x ∈ dedupBy k l seen → k x ∉ seen := by
  intro l
  induction l with
  | nil => intro seen x h; simp [dedupBy] at h
  | cons y ys ih =>
    intro seen x h
    simp only [dedupBy] at h
    by_cases hc : k y ∈ seen
    · rw [if_pos hc] at h; exact ih _ _ h
    · rw [if_neg hc] at h
      rcases List.mem_cons.mp h with h1 | h2
      · rw [h1]; exact hc
      · have h3 := ih _ _ h2
        intro hx
        exact h3 (List.mem_cons_of_mem _ hx)

theorem pairwise_key_dedupBy {α κ : Type} [DecidableEq κ] (k : α → κ) :
    ∀ (l : List α) (seen : List κ), (dedupBy k l seen).Pairwise (fun a b => k a ≠ k b) := by
  intro l
  induction l with
  | nil => intro seen; simp [dedupBy]
  | cons y ys ih =>
    intro seen
    simp only [dedupBy]
    by_cases hc : k y ∈ seen
    · rw [if_pos hc]; exact ih seen
    · rw [if_neg hc]
      refine List.Pairwise.cons ?_ (ih _)
      intro b hb hEq
      have hnot := key_not_seen_of_mem_dedupBy _ _ _ hb
      exact hnot (by rw [← hEq]; exact List.mem_cons_self _ _)

/-! ## Structural facts about the customer dedup pipeline -/

theorem mem_custWithId2 (cust : List RawCust) (x : RawCust) (hx : x ∈ custWithId2 cust) :
    x.id.isSome = true := by
  unfold custWithId2 at hx
  by_cases h : (custWithId cust).isEmpty
  · rw [if_pos h, List.isEmpty_iff.mp h] at hx; cases hx
  · rw [if_neg h] at hx
    have hm : x ∈ custWithId cust := mem_of_mem_dedupBy (custWithId cust) [] x hx
    have hm2 : x ∈ cust.filter (fun r => r.id.isSome) := hm
    exact (List.mem_filter.mp hm2).2

theorem pairwise_id_custWithId2 (cust : List RawCust) :
    (custWithId2 cust).Pairwise (fun a b => a.id ≠ b.id) := by
  unfold custWithId2
  by_cases h : (custWithId cust).isEmpty
  · rw [if_pos h, List.isEmpty_iff.mp h]; exact List.Pairwise.nil
  · rw [if_neg h]; exact pairwise_key_dedupBy (fun r => r.id) (custWithId cust) []

theorem mem_custWithoutId2 (cust : List RawCust) (x : RawCust) (hx : x ∈ custWithoutId2 cust) :
    x.id = none := by
  unfold custWithoutId2 at hx
  by_cases h : (custWithoutId cust).isEmpty
  · rw [if_pos h, List.isEmpty_iff.mp h] at hx; cases hx
  · rw [if_neg h] at hx
    by_cases h2 : (custWithId2 cust).isEmpty
    · rw [if_pos h2] at hx
      have hm : x ∈ cust.filter (fun r => r.id.isNone) :=
        mem_of_mem_dedupBy (custWithoutId cust) [] x hx
      have hp : x.id.isNone = true := (List.mem_filter.mp hm).2
      exact Option.isNone_iff_eq_none.mp hp
    · rw [if_neg h2] at hx
      have hx2 := (List.mem_filter.mp hx).1
      have hm : x ∈ cust.filter (fun r => r.id.isNone) :=
        mem_of_mem_dedupBy (custWithoutId cust) [] x hx2
      have hp : x.id.isNone = true := (List.mem_filter.mp hm).2
      exact Option.isNone_iff_eq_none.mp hp

theorem pairwise_ep_custWithoutId2 (cust : List RawCust) :
    (custWithoutId2 cust).Pairwise (fun a b => epKey a ≠ epKey b) := by
  unfold custWithoutId2
  by_cases h : (custWithoutId cust).isEmpty
  · rw [if_pos h, List.isEmpty_iff.mp h]; exact List.Pairwise.nil
  · rw [if_neg h]
    by_cases h2 : (custWithId2 cust).isEmpty
    · rw [if_pos h2]; exact pairwise_key_dedupBy epKey (custWithoutId cust) []
    · rw [if_neg h2]
      exact (pairwise_key_dedupBy epKey (custWithoutId cust) []).sublist
        (List.filter_sublist _)

theorem cross_custWithoutId2 (cust : List RawCust) (x y : RawCust)
    (hx : x ∈ custWithoutId2 cust) (hy : y ∈ custWithId2 cust) : epKey x ≠ epKey y := by
  unfold custWithoutId2 at hx
  by_cases h : (custWithoutId cust).isEmpty
  · rw [if_pos h, List.isEmpty_iff.mp h] at hx; cases hx
  · rw [if_neg h] at hx
    by_cases h2 : (custWithId2 cust).isEmpty
    · rw [List.isEmpty_iff.mp h2] at hy; cases hy
    · rw [if_neg h2] at hx
      have hfil := (List.mem_filter.mp hx).2
      have hnotin : epKey x ∉ (custWithId2 cust).map epKey := by simpa using hfil
      intro hEq
      exact hnotin (by rw [hEq]; exact List.mem_map_of_mem _ hy)

/-- C2 (counterexample): the composite key of lines 82/89 is the raw
`astype(str)` email and phone joined by "|", with no lowercasing, trimming or
digit extraction; two identity-less rows whose emails differ only in case and
trailing whitespace are therefore both retained even though their normalized
(lowercased/trimmed email, digits-only phone) keys coincide, contradicting the
claimed dedup condition. -/
theorem C2_dedup_counterexample :
    c2r1 ∈ load_customers_dedup [c2r1, c2r2] ∧
    c2r2 ∈ load_customers_dedup [c2r1, c2r2] ∧
    c2r1 ≠ c2r2 ∧ c2r1.id = none ∧ c2r2.id = none ∧
    specNormKey c2r1 = specNormKey c2r2 := by decide

/-- C2 (amended): the dedup conditions hold for the raw composite key the
source actually builds (`astype(str)` email + "|" + `astype(str)` phone), not
for the normalized key: no two retained rows share a non-null identity value,
no two retained identity-less rows share the same raw composite key, and no
retained identity-less row's raw composite key equals that of a retained
identity-bearing row. -/
theorem C2_dedup_amended (cust : List RawCust) :
    (load_customers_dedup cust).Pairwise
      (fun a b => a.id.isSome = true → b.id.isSome = true → a.id ≠ b.id) ∧
    (load_customers_dedup cust).Pairwise
      (fun a b => a.id = none → b.id = none → epKey a ≠ epKey b) ∧
    ∀ a ∈ load_customers_dedup cust, ∀ b ∈ load_customers_dedup cust,
      a.id = none → b.id.isSome = true → epKey a ≠ epKey b := by
  refine ⟨?_, ?_, ?_⟩
  · unfold load_customers_dedup
    rw [List.pairwise_append]
    refine ⟨(pairwise_id_custWithId2 cust).imp (fun h _ _ => h), ?_, ?_⟩
    · apply List.pairwise_of_forall_mem_list
      intro a _ b hb _ hbs
      rw [mem_custWithoutId2 cust b hb] at hbs
      cases hbs
    · intro a _ b hb _ hbs
      rw [mem_custWithoutId2 cust b hb] at hbs
      cases hbs
  · unfold load_customers_dedup
    rw [List.pairwise_append]
    refine ⟨?_, (pairwise_ep_custWithoutId2 cust).imp (fun h _ _ => h), ?_⟩
    · apply List.pairwise_of_forall_mem_list
      intro a ha b _ han _
      have h2 := mem_custWithId2 cust a ha
      rw [han] at h2
      cases h2
    · intro a ha b _ han _
      have h2 := mem_custWithId2 cust a ha
      rw [han] at h2
      cases h2
  · intro a ha b hb han hbs
    unfold load_customers_dedup at ha hb
    rcases List.mem_append.mp ha with ha1 | ha2
    · have h2 := mem_custWithId2 cust a ha1
      rw [han] at h2
      cases h2
    · rcases List.mem_append.mp hb with hb1 | hb2
      · exact cross_custWithoutId2 cust a b ha2 hb1
      · rw [mem_custWithoutId2 cust b hb2] at hbs
        cases hbs

/-- Witness for C2 (amended): a retained identity-less row and a retained
identity-bearing row with distinct raw composite keys. -/
theorem C2_dedup_amended_witness : epKey c2wA ≠ epKey c2wB :=
  (C2_dedup_amended [c2wB, c2wA]).2.2 c2wA (by decide) c2wB (by decide) (by decide) (by decide)

/-- C7 (counterexample): the token list of line 147 contains a fifth token
"opted in", so the consent value "Opted In" maps to `True` even though it is
not among the four tokens the claim lists. -/
theorem C7_marketing_counterexample :
    marketing_opt_in (some "Opted In") = true ∧
    pyLower "Opted In" ∉ ["yes", "true", "1", "y"] := by decide

/-- C7 (amended): `marketing_opt_in` is true iff the lowercased consent value
is one of exactly the five tokens "true", "yes", "1", "y", "opted in"; a NaN
cell (stringified "nan") maps to false, and an absent consent column defaults
every row to false. -/
theorem C7_marketing_amended (s : String) (n : ℕ) :
    (marketing_opt_in (some s) = true ↔ pyLower s ∈ truthyTokens) ∧
    marketing_opt_in none = false ∧
    marketingColumn none n = List.replicate n false := by
  refine ⟨?_, by decide, rfl⟩
  simp [marketing_opt_in, pyStr]

/-! ## Sheet selection (C5) -/

theorem shapeGt_eq_true_iff (y b : ℕ × ℕ) :
    shapeGt y b = true ↔ (b.1 < y.1 ∨ (b.1 = y.1 ∧ b.2 < y.2)) := by
  simp [shapeGt]

theorem shapeGt_eq_false_iff (y b : ℕ × ℕ) :
    shapeGt y b = false ↔ ¬(b.1 < y.1 ∨ (b.1 = y.1 ∧ b.2 < y.2)) := by
  rw [← Bool.not_eq_true, shapeGt_eq_true_iff]

theorem pickSheet_fold (xs : List (ℕ × ℕ)) :
    ∀ acc : ℕ × ℕ,
      xs.foldl (fun b y => if shapeGt y b then y else b) acc ∈ acc :: xs ∧
      ∀ y ∈ acc :: xs,
        shapeGt y (xs.foldl (fun b y => if shapeGt y b then y else b) acc) = false := by
  induction xs with
  | nil =>
    intro acc
    simp only [List.foldl_nil]
    refine ⟨List.mem_cons_self _ _, ?_⟩
    intro y hy
    rw [List.mem_singleton] at hy
    rw [hy, shapeGt_eq_false_iff]
    omega
  | cons z zs ih =>
    intro acc
    simp only [List.foldl_cons]
    by_cases hc : shapeGt z acc = true
    · rw [if_pos hc]
      obtain ⟨hmem, hmax⟩ := ih z
      refine ⟨List.mem_cons_of_mem _ hmem, ?_⟩
      intro y hy
      rcases List.mem_cons.mp hy with h1 | h1
      · rw [h1]
        have hz := hmax z (List.mem_cons_self _ _)
        rw [shapeGt_eq_true_iff] at hc
        rw [shapeGt_eq_false_iff] at hz ⊢
        omega
      · exact hmax y h1
    · rw [if_neg hc]
      obtain ⟨hmem, hmax⟩ := ih acc
      refine ⟨?_, ?_⟩
      · rcases List.mem_cons.mp hmem with h1 | h1
        · rw [h1]; exact List.mem_cons_self _ _
        · exact List.mem_cons_of_mem _ (List.mem_cons_of_mem _ h1)
      · intro y hy
        rcases List.mem_cons.mp hy with h1 | h1
        · rw [h1]; exact hmax acc (List.mem_cons_self _ _)
        · rcases List.mem_cons.mp h1 with h2 | h2
          · rw [h2]
            have h3 := hmax acc (List.mem_cons_self _ _)
            have hcf : shapeGt z acc = false := by
              cases hval : shapeGt z acc
              · rfl
              · exact absurd hval hc
            rw [shapeGt_eq_false_iff] at h3 hcf ⊢
            omega
          · exact hmax y (List.mem_cons_of_mem _ h2)

/-- C5 (counterexample): on a workbook with sheets of shapes (2 rows, 10
columns) and (3 rows, 1 column) the loader picks the (3, 1) sheet, whose
row-times-column footprint 3 is strictly smaller than the other sheet's 20:
`max(..., key=lambda d: (d.shape[0], d.shape[1]))` compares shape tuples
lexicographically, not by their product. -/
theorem C5_sheet_counterexample :
    pickSheet [(2, 10), (3, 1)] = some (3, 1) ∧ 3 * 1 < 2 * 10 := by decide

/-- C5 (amended): the merchant loader selects the first sheet that is maximal
under the lexicographic order on (row count, column count) — most rows first,
ties broken by most columns — rather than the largest row-times-column
product. -/
theorem C5_sheet_amended (l : List (ℕ × ℕ)) (x : ℕ × ℕ) (h : pickSheet l = some x) :
    x ∈ l ∧ ∀ y ∈ l, shapeGt y x = false := by
  cases l with
  | nil => cases h
  | cons a xs =>
    simp only [pickSheet, Option.some.injEq] at h
    rw [← h]
    exact pickSheet_fold xs a

/-- Witness for C5 (amended): the selected sheet is one of the workbook's
sheets. -/
theorem C5_sheet_amended_witness : (3, 1) ∈ [(2, 10), (3, 1)] :=
  (C5_sheet_amended [(2, 10), (3, 1)] (3, 1) (by decide)).1

/-! ## Coalesce rule (C1) -/

/-- C1: for every merchant row produced by the enrichment step, the final
60-day figure equals the item-sales figure when that figure is not null, and
otherwise equals exactly the sum of the 0-defaulted `mtd_volume` and
`last_month_volume`; when the item figure is present and the fallback is
positive the final figure is never their sum, so a merchant with both an
item-level sales file and master-file volumes is never double-counted. -/
theorem C1_coalesce (ms : List MerchantRow) (ss : List SalesRow) (r : EnrichedRow)
    (hr : r ∈ enrich_merchants ms ss) :
    (∀ v, r.net_sales_60d_item = some v → r.net_sales_60d = v) ∧
    (r.net_sales_60d_item = none →
      r.net_sales_60d = r.mtd_volume + r.last_month_volume) ∧
    ∀ v, r.net_sales_60d_item = some v → 0 < r.mtd_volume + r.last_month_volume →
      r.net_sales_60d ≠ v + (r.mtd_volume + r.last_month_volume) := by
  obtain ⟨p, _, hpe⟩ := List.mem_map.mp hr
  subst hpe
  rcases p with ⟨mr, item⟩
  cases item with
  | none =>
    refine ⟨?_, fun _ => rfl, ?_⟩
    · intro v hv
      simp [enrichRow] at hv
    · intro v hv
      simp [enrichRow] at hv
  | some w =>
    refine ⟨?_, ?_, ?_⟩
    · intro v hv
      have hwv : w = v := by simpa [enrichRow] using hv
      rw [← hwv]
      rfl
    · intro hv
      simp [enrichRow] at hv
    · intro v hv hpos hsum
      have hwv : w = v := by simpa [enrichRow] using hv
      subst hwv
      have hns : (enrichRow (mr, some w)).net_sales_60d = w := rfl
      rw [hns] at hsum
      linarith

/-- Witness for C1: a merchant with a matching item-sales file totalling 250
and master-file volumes 100 + 100 receives the final figure 250 (not 450). -/
theorem C1_coalesce_witness : (enrichRow (c1Merchant, some 250)).net_sales_60d = 250 :=
  (C1_coalesce [c1Merchant] [c1Sale] _
    (by simp [enrich_merchants, mergeSales, c1Merchant, c1Sale])).1 250 rfl

/-! ## Sales loader fallback behaviour (C6) -/

/-- C6 (counterexample): on a file with no tabular header whose second row is
the two-column summary row `Net Sales, 100.00 dollars`, the `etl.py` sales
loader contributes no row at all — it has no summary fallback (its parser
returns `None` when no header is found) — even though the fallback scan the
claim describes extracts the figure 100 from that file. -/
theorem C6_sales_counterexample :
    (c6File.take 200).findIdx? etlHeaderLine = none ∧
    daFallbackNet c6File = 100 ∧
    etlFileContribution "MERCH" c6File = [] := by
  refine ⟨by decide, ?_, by decide⟩
  have hv : daFallbackNet c6File =
      ((100 : ℕ) : ℚ) + ((0 : ℕ) : ℚ) / (10 : ℚ) ^ (2 : ℕ) := rfl
  rw [hv]
  norm_num

/-- C6 (amended): the primary `etl.py` sales loader has no summary fallback —
a file in which the 200-line scan finds no tabular header is parsed to `None`
and contributes no row (not an error and not a zero row); the two-tier
fallback exists only in the `DashboardAnalyzer` variant, which scans the first
21 rows for two-column `Net Sales` / `Gross Sales` label rows but returns a
figure only from the last parsable `Net Sales` row and only when it is
positive (the parsed `Gross Sales` value is never returned). -/
theorem C6_sales_amended (file : SalesFile) (key : String)
    (h : (file.take 200).findIdx? etlHeaderLine = none) :
    etlParseItems file = none ∧
    etlFileContribution key file = [] ∧
    ((file.take 200).findIdx? daHeaderLine = none →
      daParseFigure file =
        if 0 < daFallbackNet file then some (daFallbackNet file) else none) := by
  have h1 : etlParseItems file = none := by
    unfold etlParseItems
    rw [h]
  refine ⟨h1, ?_, ?_⟩
  · unfold etlFileContribution
    rw [h1]
  · intro hda
    unfold daParseFigure
    rw [hda]

/-- Witness for C6 (amended): a headerless file with no parsable summary row
contributes no row to the sales aggregate. -/
theorem C6_sales_amended_witness : etlFileContribution "EMPTY" c6NoDataFile = [] :=
  (C6_sales_amended c6NoDataFile "EMPTY" (by decide)).2.1

/-! ## Window-math identities (C3) -/

theorem enrichRow_daily (p : MerchantRow × Option ℚ) :
    (enrichRow p).daily_est = (enrichRow p).net_sales_60d / 60 := rfl

theorem enrichRow_weekly (p : MerchantRow × Option ℚ) :
    (enrichRow p).weekly_est = (enrichRow p).net_sales_60d * 7 / 60 := rfl

theorem enrichRow_monthly (p : MerchantRow × Option ℚ) :
    (enrichRow p).monthly_est = (enrichRow p).net_sales_60d / 2 := rfl

theorem sum_ests_eq (l : List (MerchantRow × Option ℚ)) :
    ((l.map enrichRow).map (fun r => r.daily_est)).sum =
      ((l.map enrichRow).map (fun r => r.net_sales_60d)).sum / 60 ∧
    ((l.map enrichRow).map (fun r => r.weekly_est)).sum =
      ((l.map enrichRow).map (fun r => r.net_sales_60d)).sum * 7 / 60 ∧
    ((l.map enrichRow).map (fun r => r.monthly_est)).sum =
      ((l.map enrichRow).map (fun r => r.net_sales_60d)).sum / 2 := by
  induction l with
  | nil => simp
  | cons p ps ih =>
    simp only [List.map_cons, List.sum_cons]
    refine ⟨?_, ?_, ?_⟩
    · rw [enrichRow_daily, ih.1]; ring
    · rw [enrichRow_weekly, ih.2.1]; ring
    · rw [enrichRow_monthly, ih.2.2]; ring

/-- C3 (amended): in exact arithmetic the window identities hold against the
UNROUNDED platform total (the sum of the final per-merchant figures): the
daily-estimate sum equals total/60 exactly, the weekly sum equals
total*7/60, and the monthly sum equals total/2 — hence each identity holds
within any positive epsilon.  The snapshot, however, stores the total rounded
to two decimals, and the fatal validation step checks only the daily identity
(against that rounded total, with epsilon 1e-6). -/
theorem C3_window_amended (ms : List MerchantRow) (ss : List SalesRow) :
    ((enrich_merchants ms ss).map (fun r => r.daily_est)).sum =
      ((enrich_merchants ms ss).map (fun r => r.net_sales_60d)).sum / 60 ∧
    ((enrich_merchants ms ss).map (fun r => r.weekly_est)).sum =
      ((enrich_merchants ms ss).map (fun r => r.net_sales_60d)).sum * 7 / 60 ∧
    ((enrich_merchants ms ss).map (fun r => r.monthly_est)).sum =
      ((enrich_merchants ms ss).map (fun r => r.net_sales_60d)).sum / 2 :=
  sum_ests_eq (mergeSales ms ss)

theorem mergeSales_nil (ms : List MerchantRow) :
    mergeSales ms [] = ms.map (fun m => (m, none)) := by
  induction ms with
  | nil => rfl
  | cons m rest ih => simp [mergeSales, ih]

theorem c3_sum_field (f : EnrichedRow → ℚ) (hz : f (enrichRow (c3zeroMerchant, none)) = 0) :
    (((mergeSales c3Merchants []).map enrichRow).map f).sum =
      f (enrichRow (c3bigMerchant, none)) := by
  rw [mergeSales_nil]
  unfold c3Merchants
  rw [List.map_cons, List.map_replicate, List.map_cons, List.map_replicate,
    List.map_cons, List.map_replicate, List.sum_cons, hz, List.sum_replicate,
    smul_zero, add_zero]

theorem c3_platform_total : (enrich_and_metrics c3Merchants [] []).2.platform_total_60d = 0 := by
  have h1 : (enrich_and_metrics c3Merchants [] []).2.platform_total_60d =
      round2 ((((mergeSales c3Merchants []).map enrichRow).map
        (fun r => r.net_sales_60d)).sum) := rfl
  rw [h1, c3_sum_field (fun r => r.net_sales_60d) (by norm_num [enrichRow, c3zeroMerchant])]
  have h2 : (enrichRow (c3bigMerchant, none)).net_sales_60d = 1 / 50000 := by
    norm_num [enrichRow, c3bigMerchant]
  rw [h2]
  unfold round2
  rw [round_eq]
  norm_num

/-- C3 (counterexample): a 700-merchant table whose only revenue is a single
master-file volume of 0.00002 passes the pipeline's fatal validation (the
row-count floor and the daily window check against the snapshot's rounded
total both hold), yet the weekly identity against the snapshot total fails
the claimed 1e-6 epsilon: the snapshot's platform_total_60d is rounded to two
decimals (here to 0), while the weekly-estimate sum is 7/3000000 > 1e-6. -/
theorem C3_window_counterexample :
    pipelineValidation (enrich_and_metrics c3Merchants [] []).1
      (enrich_and_metrics c3Merchants [] []).2 ∧
    ¬ (|((enrich_and_metrics c3Merchants [] []).1.map (fun r => r.weekly_est)).sum -
        (enrich_and_metrics c3Merchants [] []).2.platform_total_60d * 7 / 60| <
        1 / 1000000) := by
  have he : (enrich_and_metrics c3Merchants [] []).1 =
      (mergeSales c3Merchants []).map enrichRow := rfl
  have hd : (((mergeSales c3Merchants []).map enrichRow).map
      (fun r => r.daily_est)).sum = 1 / 3000000 := by
    rw [c3_sum_field (fun r => r.daily_est) (by norm_num [enrichRow, c3zeroMerchant])]
    norm_num [enrichRow, c3bigMerchant]
  have hw : (((mergeSales c3Merchants []).map enrichRow).map
      (fun r => r.weekly_est)).sum = 7 / 3000000 := by
    rw [c3_sum_field (fun r => r.weekly_est) (by norm_num [enrichRow, c3zeroMerchant])]
    norm_num [enrichRow, c3bigMerchant]
  have hlen : ((mergeSales c3Merchants []).map enrichRow).length = 700 := by
    rw [mergeSales_nil, List.length_map, List.length_map]
    unfold c3Merchants
    rw [List.length_cons, List.length_replicate]
  constructor
  · unfold pipelineValidation
    constructor
    · rw [he, hlen]
    · rw [he, hd, c3_platform_total]
      rw [show ((0 : ℚ) / 60 : ℚ) = 0 by norm_num, sub_zero,
        abs_of_nonneg (by norm_num : (0 : ℚ) ≤ 1 / 3000000)]
      norm_num
  · rw [he, hw, c3_platform_total]
    rw [show ((0 : ℚ) * 7 / 60 : ℚ) = 0 by norm_num, sub_zero,
      abs_of_nonneg (by norm_num : (0 : ℚ) ≤ 7 / 3000000)]
    norm_num

/-! ## Top-3 ranking (C4) -/

/-- C4 (amended): the top3 frame is the first three rows of a permutation of
the enriched table that is sorted descending by the final figure — so it does
contain the three largest figures in descending order — but two merchants with
equal figures appear in the REVERSE of their original row order: pandas
computes an ascending (stable) argsort of the key column and reverses the
whole indexer for `ascending=False`. -/
theorem C4_top3_amended (rows : List EnrichedRow) :
    ((sortDescEnum rows).map Prod.snd).Perm rows ∧
    (sortDescEnum rows).Pairwise (fun a b => ascPairLe b a) ∧
    top3Of rows = ((sortDescEnum rows).take 3).map top3RowOf := by
  refine ⟨?_, ?_, rfl⟩
  · unfold sortDescEnum
    refine ((List.reverse_perm _).map _).trans ?_
    refine ((List.perm_insertionSort ascPairLe rows.enum).map _).trans ?_
    rw [List.enum_map_snd]
  · unfold sortDescEnum
    rw [List.pairwise_reverse]
    exact List.sorted_insertionSort ascPairLe rows.enum

/-- C4 (counterexample): three merchants with final figures 100, 300, 300 (in
that original row order, named A, B, C).  The claimed stable descending order
is [B, C, A]; the code produces [C, B, A] — the tied merchants B and C come
out in reverse row order. -/
theorem C4_top3_counterexample :
    (top3Of c4Rows).map (fun t => t.legal_name) = [some "C", some "B", some "A"] ∧
    (top3Spec c4Rows).map (fun t => t.legal_name) = [some "B", some "C", some "A"] ∧
    top3Of c4Rows ≠ top3Spec c4Rows := by
  have h1 : (top3Of c4Rows).map (fun t => t.legal_name) =
      [some "C", some "B", some "A"] := by
    norm_num [top3Of, sortDescEnum, top3RowOf, c4Rows, c4rowA, c4rowB, c4rowC,
      ascPairLe, List.enum, List.enumFrom]
  have h2 : (top3Spec c4Rows).map (fun t => t.legal_name) =
      [some "B", some "C", some "A"] := by
    norm_num [top3Spec, top3RowOf, c4Rows, c4rowA, c4rowB, c4rowC,
      descLeSpec, List.enum, List.enumFrom]
  refine ⟨h1, h2, ?_⟩
  intro hEq
  rw [hEq] at h1
  have h3 := h1.symm.trans h2
  simp at h3

/-! ## Metrics arithmetic consistency (C8) -/

/-- C8: every metrics snapshot returned by `enrich_and_metrics` satisfies
merchants_inactive = merchants_total - merchants_active,
customers_inactive = customers_total - customers_active,
0 ≤ merchants_active ≤ merchants_total,
0 ≤ customers_active ≤ customers_total, and
merchants_with_item_data ≤ merchants_total. -/
theorem C8_metrics_consistency (ms : List MerchantRow) (cs : List CustomerRow)
    (ss : List SalesRow) :
    (enrich_and_metrics ms cs ss).2.merchants_inactive =
      (enrich_and_metrics ms cs ss).2.merchants_total -
        (enrich_and_metrics ms cs ss).2.merchants_active ∧
    (enrich_and_metrics ms cs ss).2.customers_inactive =
      (enrich_and_metrics ms cs ss).2.customers_total -
        (enrich_and_metrics ms cs ss).2.customers_active ∧
    0 ≤ (enrich_and_metrics ms cs ss).2.merchants_active ∧
    (enrich_and_metrics ms cs ss).2.merchants_active ≤
      (enrich_and_metrics ms cs ss).2.merchants_total ∧
    0 ≤ (enrich_and_metrics ms cs ss).2.customers_active ∧
    (enrich_and_metrics ms cs ss).2.customers_active ≤
      (enrich_and_metrics ms cs ss).2.customers_total ∧
    (enrich_and_metrics ms cs ss).2.merchants_with_item_data ≤
      (enrich_and_metrics ms cs ss).2.merchants_total := by
  refine ⟨rfl, rfl, ?_, ?_, ?_, ?_, ?_⟩
  · show (0 : ℤ) ≤
      ((((mergeSales ms ss).map enrichRow).countP (fun r => r.active_flag) : ℕ) : ℤ)
    exact Int.natCast_nonneg _
  · show ((((mergeSales ms ss).map enrichRow).countP (fun r => r.active_flag) : ℕ) : ℤ) ≤
      ((((mergeSales ms ss).map enrichRow).length : ℕ) : ℤ)
    exact Nat.cast_le.mpr (List.countP_le_length _)
  · show (0 : ℤ) ≤ ((cs.countP (fun r => r.active_flag) : ℕ) : ℤ)
    exact Int.natCast_nonneg _
  · show ((cs.countP (fun r => r.active_flag) : ℕ) : ℤ) ≤ ((cs.length : ℕ) : ℤ)
    exact Nat.cast_le.mpr (List.countP_le_length _)
  · show (((mergeSales ms ss).countP (fun p => p.2.isSome) : ℕ) : ℤ) ≤
      ((((mergeSales ms ss).map enrichRow).length : ℕ) : ℤ)
    rw [List.length_map]
    exact Nat.cast_le.mpr (List.countP_le_length _)

/-! ## Metrics cache round trip (C9) -/

theorem pyEqRow_self (r : Top3Row) (h : rowNoNan r = true) : pyEqRow r r = true := by
  unfold rowNoNan at h
  rw [Bool.and_eq_true] at h
  obtain ⟨h1, h2⟩ := h
  obtain ⟨a, ha⟩ := Option.isSome_iff_exists.mp h1
  obtain ⟨b, hb⟩ := Option.isSome_iff_exists.mp h2
  simp [pyEqRow, pyEqOptStr, ha, hb]

theorem pyEqRows_self (l : List Top3Row) (h : ∀ r ∈ l, rowNoNan r = true) :
    pyEqRows l l = true := by
  induction l with
  | nil => rfl
  | cons x xs ih =>
    have hx := pyEqRow_self x (h x (List.mem_cons_self _ _))
    have hxs := ih (fun r hr => h r (List.mem_cons_of_mem _ hr))
    simp [pyEqRows, hx, hxs]

/-- C9 (counterexample): when the top3 table holds a NaN cell (here a missing
dba_name), the dictionary parsed back from the cache is NOT Python-equal to
the saved dictionary with top3 flattened: JSON re-materializes NaN as a fresh
float object and `nan == nan` is false, so the whole dictionary comparison is
false. -/
theorem C9_roundtrip_counterexample :
    pyEqMetrics (load_previous_metrics (save_current_metrics c9Metrics).1)
      { c9Metrics with top3 := TopVal.records (rowsOfTop c9Metrics.top3) } = false := by
  decide

/-- C9 (amended): provided no top3 cell is NaN, loading right after saving
returns a dictionary Python-equal to the argument with top3 replaced by its
flattened list-of-records form and every scalar field unchanged; and
`save_current_metrics` never modifies its argument (it writes through a
shallow copy), independent of the NaN condition. -/
theorem C9_roundtrip_amended (m : MetricsDict)
    (h : ∀ r ∈ rowsOfTop m.top3, rowNoNan r = true) :
    pyEqMetrics (load_previous_metrics (save_current_metrics m).1)
      { m with top3 := TopVal.records (rowsOfTop m.top3) } = true ∧
    (save_current_metrics m).2 = m := by
  refine ⟨?_, rfl⟩
  have hrows := pyEqRows_self (rowsOfTop m.top3) h
  simp [pyEqMetrics, load_previous_metrics, save_current_metrics, pyEqTop, hrows]

/-- Witness for C9 (amended): a NaN-free metrics dictionary survives the
save/load round trip up to top3 flattening. -/
theorem C9_roundtrip_amended_witness :
    pyEqMetrics (load_previous_metrics (save_current_metrics c9GoodMetrics).1)
      { c9GoodMetrics with top3 := TopVal.records (rowsOfTop c9GoodMetrics.top3) } = true :=
  (C9_roundtrip_amended c9GoodMetrics (by decide)).1

/-! ## Frame property of the enrichment engine (C10) -/

/-- C10: `enrich_and_metrics` leaves all three of its input tables unchanged —
the source copies `merchants` and `sales_agg` and writes only to the copies,
and only reads `customers` — so after the call each input equals its value
before the call. -/
theorem C10_frame_inputs (t : PipelineTables) : (enrich_and_metrics_frame t).1 = t := rfl

end Etl
